import Mathlib

/-!
Shallow embedding of the whisper-transcribe-agent pipeline (src/main.go):
URL extraction, bounded download, multipart forwarding, filename
derivation, the chat-completions handler and the upload handler.
Go strings are modelled as lists of characters, byte payloads as lists
of naturals, and external effects (HTTP GET, the backend transport and
JSON decoding) as explicit oracles supplied in an environment record.
-/

/-- A Go string, modelled as its character sequence. -/
abbrev Str := List Char

/-- Coerce a Lean string literal into the model's string type. -/
def str (s : String) : Str := s.toList

/-- Go's unicode space test (unicode.IsSpace), as used by strings.Fields
and strings.TrimSpace. -/
def goIsSpace (c : Char) : Bool :=
  c = ' ' || c = '\t' || c = '\n' || c.val = 0x0b || c.val = 0x0c || c = '\r' ||
  c.val = 0x85 || c.val = 0xA0 || c.val = 0x1680 ||
  (0x2000 ≤ c.val && c.val ≤ 0x200A) ||
  c.val = 0x2028 || c.val = 0x2029 || c.val = 0x202F || c.val = 0x205F ||
  c.val = 0x3000

/-- strings.TrimSpace: drop leading and trailing whitespace. -/
def goTrimSpace (s : Str) : Str :=
  ((s.dropWhile goIsSpace).reverse.dropWhile goIsSpace).reverse

/-- Accumulator-based splitter behind goFields; acc holds the current
token reversed. -/
def goFieldsAux : List Char → List Char → List Str
  | [], acc => if acc.isEmpty then [] else [acc.reverse]
  | c :: rest, acc =>
    if goIsSpace c then
      if acc.isEmpty then goFieldsAux rest []
      else acc.reverse :: goFieldsAux rest []
    else goFieldsAux rest (c :: acc)

/-- strings.Fields: the maximal runs of non-whitespace characters. -/
def goFields (s : Str) : List Str := goFieldsAux s []

/-- strings.HasPrefix p s: does s start with p? (arguments: pattern,
then the string searched). -/
def goStartsWith : Str → Str → Bool
  | [], _ => true
  | _ :: _, [] => false
  | p :: ps, c :: cs => p = c && goStartsWith ps cs

/-- The token test of extractURLFromText: begins with http:// or
https://. -/
def isURLToken (t : Str) : Bool :=
  goStartsWith (str "http://") t || goStartsWith (str "https://") t

/-- extractFilename's error: no usable extension. -/
inductive FilenameError where
  | invalidExtension
deriving DecidableEq

/-- The message of the Go error produced by extractFilename. -/
def FilenameError.message : FilenameError → Str
  | .invalidExtension => str "invalid or missing file extension"

/-- Index of the last occurrence of a dot (strings.LastIndex with "."),
none when absent. -/
def lastDotIdx : List Char → Option Nat
  | [] => none
  | c :: rest =>
    match lastDotIdx rest with
    | some i => some (i + 1)
    | none => if c = '.' then some 0 else none

/-- extractFilename (src/main.go): locate the last dot; fail when it is
absent or final; otherwise return "audio" plus the suffix from the dot. -/
def extractFilename (input : Str) : Except FilenameError Str :=
  match lastDotIdx input with
  | none => .error .invalidExtension
  | some dotIndex =>
    if dotIndex = input.length - 1 then .error .invalidExtension
    else .ok (str "audio" ++ input.drop dotIndex)

/-- extractURLFromText (src/main.go): trim, split into fields, return
the first token with an http:// or https:// scheme, else empty. -/
def extractURLFromText (text : Str) : Str :=
  match (goFields (goTrimSpace text)).find? isURLToken with
  | some t => t
  | none => []

/-- The observable part of an http.Get result: the declared content
length (-1 when absent), the body bytes actually deliverable, and an
optional error surfaced at the end of the body stream. -/
structure HTTPResponse where
  contentLength : Int
  body : List Nat
  readErr : Option Str
deriving DecidableEq

/-- Failure modes of downloadFileWithLimit, one per error return in the
source. -/
inductive DownloadError where
  | httpGetFailed (cause : Str)
  | declaredSizeExceeded (maxAudioSize : Int)
  | readFailed (cause : Str)
  | actualSizeExceeded
deriving DecidableEq

/-- The message of each downloadFileWithLimit error value. -/
def DownloadError.message : DownloadError → Str
  | .httpGetFailed cause => str "HTTP get failed: " ++ cause
  | .declaredSizeExceeded m =>
      str "file exceeds maximum size of " ++ str (toString (m / 1024 / 1024)) ++ str " MB"
  | .readFailed cause => cause
  | .actualSizeExceeded => str "downloaded file exceeds size limit"

/-- downloadFileWithLimit after the GET (src/main.go): reject a declared
length over the limit before reading; otherwise read the body through a
reader capped at maxAudioSize + 1 bytes and reject when more than
maxAudioSize bytes arrive. Returns the outcome together with the number
of body bytes consumed. -/
def downloadFileWithLimit (resp : HTTPResponse) (maxAudioSize : Int) :
    Except DownloadError (List Nat) × Nat :=
  if maxAudioSize < resp.contentLength then
    (.error (.declaredSizeExceeded maxAudioSize), 0)
  else
    let lim := (maxAudioSize + 1).toNat
    let data := resp.body.take lim
    match resp.readErr with
    | some cause =>
      if resp.body.length < lim then (.error (.readFailed cause), data.length)
      else if maxAudioSize < (data.length : Int) then (.error .actualSizeExceeded, data.length)
      else (.ok data, data.length)
    | none =>
      if maxAudioSize < (data.length : Int) then (.error .actualSizeExceeded, data.length)
      else (.ok data, data.length)

/-- The full fetch: http.Get through the network oracle, then the
bounded read. -/
def downloadFromNet (net : Str → Except Str HTTPResponse) (url : Str)
    (maxAudioSize : Int) : Except DownloadError (List Nat) :=
  match net url with
  | .error cause => .error (.httpGetFailed cause)
  | .ok resp => (downloadFileWithLimit resp maxAudioSize).1

/-- One part of the multipart body built by sendToTranscription. -/
inductive MultipartPart where
  | filePart (fieldName : Str) (fileName : Str) (content : List Nat)
  | fieldPart (fieldName : Str) (value : Str)
deriving DecidableEq

/-- The outgoing backend request assembled by sendToTranscription. -/
structure ForwardRequest where
  method : Str
  url : Str
  parts : List MultipartPart
  contentType : Str
deriving DecidableEq

/-- The content type produced by the multipart writer for a given
boundary. -/
def multipartContentType (boundary : Str) : Str :=
  str "multipart/form-data; boundary=" ++ boundary

/-- Failure modes of sendToTranscription. -/
inductive SendError where
  | filenameFailed (e : FilenameError)
  | transportFailed (cause : Str)
deriving DecidableEq

/-- The message of each sendToTranscription error value. -/
def SendError.message : SendError → Str
  | .filenameFailed e => e.message
  | .transportFailed cause => cause

/-- sendToTranscription (src/main.go): derive the synthetic filename,
build the two-part multipart body, POST it to
whisperServerURL/v1/audio/transcriptions, and hand back the raw
response body and status uninspected. The transport oracle covers
http.DefaultClient.Do plus io.ReadAll. -/
def sendToTranscription (transport : ForwardRequest → Except Str (List Nat × Nat))
    (boundary whisperServerURL whisperModel audioURL : Str) (audio : List Nat) :
    Except SendError (List Nat × Nat) :=
  match extractFilename audioURL with
  | .error e => .error (.filenameFailed e)
  | .ok audioURLFileName =>
    let req : ForwardRequest :=
      ⟨str "POST",
       whisperServerURL ++ str "/v1/audio/transcriptions",
       [MultipartPart.filePart (str "file") audioURLFileName audio,
        MultipartPart.fieldPart (str "model") whisperModel],
       multipartContentType boundary⟩
    match transport req with
    | .error cause => .error (.transportFailed cause)
    | .ok (respData, statusCode) => .ok (respData, statusCode)

/-- A chat message as decoded from the request body. -/
structure ChatMessage where
  role : Str
  content : Str
deriving DecidableEq

/-- The decoded chat-completions request body. -/
structure ChatCompletionRequest where
  messages : List ChatMessage
deriving DecidableEq

/-- The startup configuration: backend base URL, model name and size
ceiling, set once from the flags. -/
structure Config where
  baseURL : Str
  whisperModel : Str
  maxAudioSize : Int

/-- The per-request environment of the chat-completions handler: the
method, the outcome JSON decoding of the body would have, the network
oracle for http.Get, the multipart boundary the writer picks, the
backend transport oracle, the outcome parsing a backend body into its
text field would have, and the wall clock. -/
structure ChatEnv where
  method : Str
  parseBody : Except Str ChatCompletionRequest
  net : Str → Except Str HTTPResponse
  boundary : Str
  transport : ForwardRequest → Except Str (List Nat × Nat)
  parseTrans : List Nat → Except Str Str
  now : Int

/-- Which terminal branch of the chat-completions handler fires. -/
inductive ChatOutcome where
  | methodNotAllowed
  | invalidJSON (cause : Str)
  | noMessages
  | noURL
  | downloadFailed (e : DownloadError)
  | transcriptionError (e : SendError)
  | invalidResponse (cause : Str)
  | success (text : Str)
deriving DecidableEq

/-- The branch structure of the chat-completions handler in src/main.go:
method check, body decode, emptiness check, URL extraction, bounded
download, forwarding, backend-body decode. -/
def chatOutcome (cfg : Config) (env : ChatEnv) : ChatOutcome :=
  if env.method ≠ str "POST" then .methodNotAllowed
  else
    match env.parseBody with
    | .error cause => .invalidJSON cause
    | .ok chatReq =>
      match chatReq.messages.getLast? with
      | none => .noMessages
      | some lastMsg =>
        let audioURL := extractURLFromText lastMsg.content
        if audioURL = [] then .noURL
        else
          match downloadFromNet env.net audioURL cfg.maxAudioSize with
          | .error e => .downloadFailed e
          | .ok audioData =>
            match sendToTranscription env.transport env.boundary cfg.baseURL
                cfg.whisperModel audioURL audioData with
            | .error e => .transcriptionError e
            | .ok (respBody, _) =>
              match env.parseTrans respBody with
              | .error cause => .invalidResponse cause
              | .ok text => .success text

/-- The text respond is called with, after the "text: err" formatting
respond applies when an error is present. -/
def outcomeText : ChatOutcome → Str
  | .methodNotAllowed => str "Method not allowed"
  | .invalidJSON cause => str "Invalid JSON" ++ str ": " ++ cause
  | .noMessages => str "No messages provided"
  | .noURL => str "No audio URL found in message"
  | .downloadFailed e => str "Failed to download audio" ++ str ": " ++ e.message
  | .transcriptionError e => str "Transcription error" ++ str ": " ++ e.message
  | .invalidResponse cause => str "Invalid transcription response" ++ str ": " ++ cause
  | .success text => text

/-- The message object inside a choice of the envelope. -/
structure EnvMessage where
  role : Str
  content : Str
deriving DecidableEq

/-- One choice of the envelope. -/
structure EnvChoice where
  index : Nat
  message : EnvMessage
  finishReason : Str
deriving DecidableEq

/-- The chat-completion envelope respond always builds. -/
structure Envelope where
  id : Str
  object : Str
  created : Int
  model : Str
  choices : List EnvChoice
deriving DecidableEq

/-- What the handler writes back: status, content type and the JSON
envelope. -/
structure HandlerResponse where
  status : Nat
  contentType : Str
  body : Envelope
deriving DecidableEq

/-- The respond closure of src/main.go: wrap the chosen text in the
fixed envelope and write it with status 200 as application/json. -/
def respondModel (model : Str) (now : Int) (text : Str) : HandlerResponse :=
  ⟨200, str "application/json",
   ⟨str "chatcmpl-mockid", str "chat.completion", now, model,
    [⟨0, ⟨str "assistant", text⟩, str "stop"⟩]⟩⟩

/-- The whole chat-completions handler: pick the branch, render its
text, respond. -/
def chatCompletionsHandler (cfg : Config) (env : ChatEnv) : HandlerResponse :=
  respondModel cfg.whisperModel env.now (outcomeText (chatOutcome cfg env))

/-- The per-request environment of the upload handler: the method, the
outcome of ParseMultipartForm under the MaxBytesReader cap, the outcome
of FormFile (the uploaded filename on success), the outcome of reading
the file into memory, the multipart boundary, the transport oracle and
the backend-body decode oracle. -/
structure UploadEnv where
  method : Str
  parseForm : Except Unit Unit
  formFile : Except Unit Str
  fileRead : Except Unit (List Nat)
  boundary : Str
  transport : ForwardRequest → Except Str (List Nat × Nat)
  parseResult : List Nat → Except Str Str

/-- What the upload handler writes back: an http.Error with its status,
or one of the three rendered HTML pages (all written with status 200). -/
inductive UploadOutput where
  | httpError (msg : Str) (status : Nat)
  | errorHTML (errMsg : Str)
  | parseFailHTML (errMsg : Str)
  | resultHTML (text : Str)
deriving DecidableEq

/-- The HTTP status each upload output is written with; template
renderings go out with the implicit 200. -/
def UploadOutput.status : UploadOutput → Nat
  | .httpError _ s => s
  | .errorHTML _ => 200
  | .parseFailHTML _ => 200
  | .resultHTML _ => 200

/-- uploadHandler (src/main.go): method check, size-capped multipart
parse, file lookup, in-memory read, forwarding, backend-body decode,
result page. -/
def uploadHandler (cfg : Config) (env : UploadEnv) : UploadOutput :=
  if env.method ≠ str "POST" then .httpError (str "Only POST supported") 405
  else
    match env.parseForm with
    | .error _ => .httpError (str "File too large") 400
    | .ok _ =>
      match env.formFile with
      | .error _ => .httpError (str "Missing file") 400
      | .ok filename =>
        match env.fileRead with
        | .error _ => .httpError (str "Failed to read file") 500
        | .ok data =>
          match sendToTranscription env.transport env.boundary cfg.baseURL
              cfg.whisperModel filename data with
          | .error e => .errorHTML e.message
          | .ok (respData, _) =>
            match env.parseResult respData with
            | .error cause => .parseFailHTML cause
            | .ok text => .resultHTML text

/-- A concrete configuration used by the concrete evaluations below. -/
def cfgEx : Config := ⟨str "http://w", str "m", 100⟩

/-- A concrete request environment whose whole pipeline succeeds with
transcript "hello world". -/
def envEx : ChatEnv :=
  ⟨str "POST", .ok ⟨[⟨str "user", str "t https://h/a.mp3"⟩]⟩,
   fun _ => .ok ⟨10, [1, 2, 3], none⟩, str "b",
   fun _ => .ok ([7], 200), fun _ => .ok (str "hello world"), 5⟩

/-- Like envEx, but the backend transcript is literally the string
"No messages provided". -/
def envC8 : ChatEnv :=
  ⟨str "POST", .ok ⟨[⟨str "user", str "t https://h/a.mp3"⟩]⟩,
   fun _ => .ok ⟨10, [1, 2, 3], none⟩, str "b",
   fun _ => .ok ([7], 200), fun _ => .ok (str "No messages provided"), 5⟩

/-- A concrete request environment whose body parses to an empty
message list. -/
def envEmpty : ChatEnv :=
  ⟨str "POST", .ok ⟨[]⟩, fun _ => .ok ⟨10, [1, 2, 3], none⟩, str "b",
   fun _ => .ok ([7], 200), fun _ => .ok (str "hello world"), 5⟩

theorem lastDotIdx_eq_none (s : List Char) : lastDotIdx s = none ↔ ¬ '.' ∈ s := by
  induction s with
  | nil => simp [lastDotIdx]
  | cons c rest ih =>
    simp only [lastDotIdx]
    cases h : lastDotIdx rest with
    | some i =>
      rw [h] at ih
      simp only [reduceCtorEq, false_iff, not_not] at ih
      simp [List.mem_cons, ih]
    | none =>
      rw [h] at ih
      simp only [true_iff] at ih
      by_cases hc : c = '.'
      · simp [hc]
      · simp only [hc, if_false, true_iff, List.mem_cons]
        intro hor
        rcases hor with hl | hr
        · exact hc hl.symm
        · exact ih hr

theorem lastDotIdx_append (pre post : List Char) (h : ¬ '.' ∈ post) :
    lastDotIdx (pre ++ '.' :: post) = some pre.length := by
  induction pre with
  | nil =>
    simp only [List.nil_append, lastDotIdx, (lastDotIdx_eq_none post).mpr h]
    simp
  | cons c pre ih =>
    have hstep : lastDotIdx ((c :: pre) ++ '.' :: post) =
        match lastDotIdx (pre ++ '.' :: post) with
        | some i => some (i + 1)
        | none => if c = '.' then some 0 else none := rfl
    rw [hstep, ih]
    simp

theorem exists_last_dot (s : List Char) (h : '.' ∈ s) :
    ∃ pre post, s = pre ++ '.' :: post ∧ ¬ '.' ∈ post := by
  induction s with
  | nil => cases h
  | cons c rest ih =>
    by_cases hr : '.' ∈ rest
    · obtain ⟨pre, post, heq, hpost⟩ := ih hr
      exact ⟨c :: pre, post, by simp [heq], hpost⟩
    · have hc : c = '.' := by
        rcases List.mem_cons.mp h with hl | hrr
        · exact hl.symm
        · exact absurd hrr hr
      exact ⟨[], rest, by simp [hc], hr⟩

theorem extractFilename_success (pre post : List Char) (hpost : post ≠ [])
    (h : ¬ '.' ∈ post) :
    extractFilename (pre ++ '.' :: post) = .ok (str "audio" ++ '.' :: post) := by
  have hlen : (pre ++ '.' :: post).length = pre.length + post.length + 1 := by
    simp [List.length_append]
    omega
  have hne : pre.length ≠ (pre ++ '.' :: post).length - 1 := by
    rw [hlen]
    have : 0 < post.length := List.length_pos.mpr hpost
    omega
  simp only [extractFilename, lastDotIdx_append pre post h, hne, if_false]
  rw [List.drop_left]

theorem extractFilename_error_iff (input : Str) :
    extractFilename input = .error .invalidExtension ↔
      (¬ '.' ∈ input ∨ ∃ pre, input = pre ++ [ '.' ]) := by
  constructor
  · intro h
    by_cases hd : '.' ∈ input
    · right
      obtain ⟨pre, post, heq, hpost⟩ := exists_last_dot input hd
      by_cases hpe : post = []
      · exact ⟨pre, by rw [heq, hpe]⟩
      · rw [heq, extractFilename_success pre post hpe hpost] at h
        exact Except.noConfusion h
    · exact Or.inl hd
  · intro h
    rcases h with hnd | ⟨pre, heq⟩
    · simp [extractFilename, (lastDotIdx_eq_none input).mpr hnd]
    · rw [heq]
      have hl : lastDotIdx (pre ++ [ '.' ]) = some pre.length :=
        lastDotIdx_append pre [] (by simp)
      have hcond : pre.length = (pre ++ [ '.' ]).length - 1 := by simp
      simp only [extractFilename, hl, hcond, if_pos]

/-- C4: filename derivation fails with InvalidExtension exactly when the
input contains no dot or ends in a dot; otherwise it succeeds with
"audio" followed by the input's suffix from its last dot (dot included),
as on the spec's three examples. -/
theorem c4_extractFilename_spec (input : Str) :
    (extractFilename input = .error .invalidExtension ↔
      (¬ '.' ∈ input ∨ ∃ pre, input = pre ++ [ '.' ])) ∧
    (∀ pre post, input = pre ++ '.' :: post → post ≠ [] → ¬ '.' ∈ post →
      extractFilename input = .ok (str "audio" ++ '.' :: post)) ∧
    extractFilename (str "https://x/y/clip.WAV") = .ok (str "audio.WAV") ∧
    extractFilename (str "https://x/y/noext") = .error .invalidExtension ∧
    extractFilename (str "https://x/trailing.") = .error .invalidExtension := by
  refine ⟨extractFilename_error_iff input, ?_, rfl, rfl, rfl⟩
  intro pre post heq hpost hdot
  rw [heq]
  exact extractFilename_success pre post hpost hdot

/-- Witness for C4: the success clause applied at a concrete input. -/
theorem c4_extractFilename_spec_w :
    extractFilename (str "a.mp3") = .ok (str "audio" ++ '.' :: str "mp3") :=
  (c4_extractFilename_spec (str "a.mp3")).2.1 (str "a") (str "mp3") rfl
    (by decide) (by decide)

/-- C10: on "https://example.com/audio" (dotted host, extension-less
path) the deriver succeeds and the derived name "audio.com/audio"
contains a slash. -/
theorem c10_slash_filename :
    extractFilename (str "https://example.com/audio") = .ok (str "audio.com/audio") ∧
    '/' ∈ str "audio.com/audio" := ⟨rfl, by decide⟩

/-- C2: under a declared length that passed the check (or none) and a
cleanly delivered body, a body of strictly more than maxBytes bytes
fails with the size-exceeded error, a body of exactly maxBytes bytes
succeeds with exactly those bytes, and at most maxBytes + 1 body bytes
are ever consumed. -/
theorem c2_stream_limit (net : Str → Except Str HTTPResponse) (url : Str)
    (maxBytes : Int) (resp : HTTPResponse)
    (hnet : net url = .ok resp) (hmax : 0 ≤ maxBytes)
    (hcl : resp.contentLength ≤ maxBytes) (hre : resp.readErr = none) :
    ((maxBytes < (resp.body.length : Int) →
        downloadFromNet net url maxBytes = .error .actualSizeExceeded) ∧
      ((resp.body.length : Int) = maxBytes →
        downloadFromNet net url maxBytes = .ok resp.body)) ∧
    ((downloadFileWithLimit resp maxBytes).2 : Int) ≤ maxBytes + 1 := by
  have hfetch : downloadFromNet net url maxBytes = (downloadFileWithLimit resp maxBytes).1 := by
    simp [downloadFromNet, hnet]
  have hnotdecl : ¬ maxBytes < resp.contentLength := not_lt.mpr hcl
  refine ⟨⟨?_, ?_⟩, ?_⟩
  · intro hover
    have hdata : (resp.body.take (maxBytes + 1).toNat).length = (maxBytes + 1).toNat := by
      simp only [List.length_take]
      omega
    rw [hfetch]
    simp only [downloadFileWithLimit, hnotdecl, if_false, hre]
    rw [if_pos (by rw [hdata]; omega)]
  · intro hexact
    have htake : resp.body.take (maxBytes + 1).toNat = resp.body :=
      List.take_of_length_le (by omega)
    rw [hfetch]
    simp only [downloadFileWithLimit, hnotdecl, if_false, hre, htake]
    rw [if_neg (by omega)]
  · simp only [downloadFileWithLimit, hnotdecl, if_false, hre]
    by_cases hc : maxBytes < ((resp.body.take (maxBytes + 1).toNat).length : Int)
    · rw [if_pos hc]
      simp only [List.length_take]
      omega
    · rw [if_neg hc]
      simp only [List.length_take]
      omega

/-- Witness for C2: maxBytes 1000 against a stream of 1001 bytes with no
declared length fails, and a stream of exactly 1000 bytes succeeds. -/
theorem c2_stream_limit_w :
    downloadFromNet (fun _ => .ok ⟨-1, List.replicate 1001 0, none⟩) (str "u") 1000 =
      .error .actualSizeExceeded ∧
    downloadFromNet (fun _ => .ok ⟨-1, List.replicate 1000 0, none⟩) (str "u") 1000 =
      .ok (List.replicate 1000 0) := by
  have hcl1 : (-1 : Int) ≤ 1000 := by omega
  have hover : (1000 : Int) < ((List.replicate 1001 (0 : Nat)).length : Int) := by
    rw [List.length_replicate]
    omega
  have hexact : (((List.replicate 1000 (0 : Nat)).length : Nat) : Int) = 1000 := by
    rw [List.length_replicate]
    rfl
  constructor
  · exact (c2_stream_limit _ (str "u") 1000 ⟨-1, List.replicate 1001 0, none⟩
      rfl (by omega) hcl1 rfl).1.1 hover
  · exact (c2_stream_limit _ (str "u") 1000 ⟨-1, List.replicate 1000 0, none⟩
      rfl (by omega) hcl1 rfl).1.2 hexact

/-- C3: a declared content length strictly over the limit fails
immediately with the declared-size error, with zero body bytes
consumed. -/
theorem c3_declared_limit (net : Str → Except Str HTTPResponse) (url : Str)
    (maxBytes : Int) (resp : HTTPResponse)
    (hnet : net url = .ok resp) (hcl : maxBytes < resp.contentLength) :
    downloadFromNet net url maxBytes = .error (.declaredSizeExceeded maxBytes) ∧
    (downloadFileWithLimit resp maxBytes).2 = 0 := by
  constructor
  · simp [downloadFromNet, hnet, downloadFileWithLimit, if_pos hcl]
  · simp [downloadFileWithLimit, if_pos hcl]

/-- Witness for C3: maxBytes 1000 against a declared length of 2000. -/
theorem c3_declared_limit_w :
    downloadFromNet (fun _ => .ok ⟨2000, [], none⟩) (str "u") 1000 =
      .error (.declaredSizeExceeded 1000) ∧
    (downloadFileWithLimit ⟨2000, [], none⟩ 1000).2 = 0 :=
  c3_declared_limit _ (str "u") 1000 ⟨2000, [], none⟩ rfl
    (show (1000 : Int) < 2000 by omega)

theorem find?_first_qualifying (p : Str → Bool) (l1 l2 : List Str) (a : Str)
    (ha : p a = true) (h1 : ∀ u ∈ l1, p u = false) :
    (l1 ++ a :: l2).find? p = some a := by
  induction l1 with
  | nil => simp [List.find?_cons, ha]
  | cons x xs ih =>
    have hx : p x = false := h1 x (List.mem_cons_self x xs)
    simp only [List.cons_append, List.find?_cons, hx]
    exact ih fun u hu => h1 u (List.mem_cons_of_mem x hu)

/-- C5: URL extraction returns the first whitespace-delimited token that
begins with http:// or https://; when no token qualifies it returns the
empty string and the handler answers "No audio URL found in message";
on the spec's example it picks the first of the two URLs. -/
theorem c5_url_extraction (text : Str) :
    (∀ l1 tok l2, goFields (goTrimSpace text) = l1 ++ tok :: l2 →
      isURLToken tok = true → (∀ u ∈ l1, isURLToken u = false) →
      extractURLFromText text = tok) ∧
    ((∀ u ∈ goFields (goTrimSpace text), isURLToken u = false) →
      extractURLFromText text = []) ∧
    extractURLFromText (str "notes: see https://a/b.mp3 and https://c/d.wav") =
      str "https://a/b.mp3" ∧
    (∀ (cfg : Config) (env : ChatEnv) (req : ChatCompletionRequest) (m : ChatMessage),
      env.method = str "POST" → env.parseBody = .ok req →
      req.messages.getLast? = some m → extractURLFromText m.content = [] →
      chatCompletionsHandler cfg env =
        respondModel cfg.whisperModel env.now (str "No audio URL found in message")) := by
  refine ⟨?_, ?_, rfl, ?_⟩
  · intro l1 tok l2 heq htok hl1
    simp only [extractURLFromText, heq, find?_first_qualifying isURLToken l1 l2 tok htok hl1]
  · intro hnone
    have hfind : (goFields (goTrimSpace text)).find? isURLToken = none := by
      rw [List.find?_eq_none]
      intro x hx
      simp [hnone x hx]
    simp only [extractURLFromText, hfind]
  · intro cfg env req m h1 h2 h3 h4
    have houtcome : chatOutcome cfg env = .noURL := by
      simp [chatOutcome, h1, h2, h3, h4]
    simp [chatCompletionsHandler, houtcome, outcomeText]

/-- Witness for C5: first-match applied at a two-token text, and the
handler response on a URL-free message. -/
theorem c5_url_extraction_w :
    extractURLFromText (str "x https://a.mp3") = str "https://a.mp3" ∧
    chatCompletionsHandler ⟨str "b", str "m", 100⟩
      ⟨str "POST", .ok ⟨[⟨str "user", str "hi"⟩]⟩, fun _ => .error (str "e"),
       str "bd", fun _ => .error (str "e"), fun _ => .error (str "e"), 0⟩ =
      respondModel (str "m") 0 (str "No audio URL found in message") := by
  constructor
  · exact (c5_url_extraction (str "x https://a.mp3")).1 [str "x"] (str "https://a.mp3") []
      rfl rfl (by decide)
  · exact (c5_url_extraction (str "hi")).2.2.2 ⟨str "b", str "m", 100⟩
      ⟨str "POST", .ok ⟨[⟨str "user", str "hi"⟩]⟩, fun _ => .error (str "e"),
       str "bd", fun _ => .error (str "e"), fun _ => .error (str "e"), 0⟩
      ⟨[⟨str "user", str "hi"⟩]⟩ ⟨str "user", str "hi"⟩ rfl rfl rfl rfl

/-- C6: when filename derivation succeeds the forwarder submits exactly
the two-part multipart POST to backendBaseURL/v1/audio/transcriptions
and passes any transport success (raw body and status) through
unchanged; when derivation fails its error comes back and the transport
is never consulted. -/
theorem c6_forwarder_spec (transport : ForwardRequest → Except Str (List Nat × Nat))
    (boundary baseURL model audioURL : Str) (audio : List Nat) :
    (∀ fname, extractFilename audioURL = .ok fname →
      (∀ respBody status,
        transport ⟨str "POST", baseURL ++ str "/v1/audio/transcriptions",
          [MultipartPart.filePart (str "file") fname audio,
           MultipartPart.fieldPart (str "model") model],
          multipartContentType boundary⟩ = .ok (respBody, status) →
        sendToTranscription transport boundary baseURL model audioURL audio =
          .ok (respBody, status)) ∧
      (∀ cause,
        transport ⟨str "POST", baseURL ++ str "/v1/audio/transcriptions",
          [MultipartPart.filePart (str "file") fname audio,
           MultipartPart.fieldPart (str "model") model],
          multipartContentType boundary⟩ = .error cause →
        sendToTranscription transport boundary baseURL model audioURL audio =
          .error (.transportFailed cause))) ∧
    (∀ e, extractFilename audioURL = .error e →
      sendToTranscription transport boundary baseURL model audioURL audio =
        .error (.filenameFailed e)) := by
  refine ⟨fun fname hfn => ⟨?_, ?_⟩, fun e he => ?_⟩
  · intro respBody status htr
    simp only [sendToTranscription, hfn, htr]
  · intro cause htr
    simp only [sendToTranscription, hfn, htr]
  · simp only [sendToTranscription, he]

/-- Witness for C6: a constant transport observed through a URL with an
extension and one without. -/
theorem c6_forwarder_spec_w :
    sendToTranscription (fun _ => .ok ([1, 2], 200)) (str "b") (str "http://w") (str "m")
      (str "a.mp3") [9] = .ok ([1, 2], 200) ∧
    sendToTranscription (fun _ => .ok ([1, 2], 200)) (str "b") (str "http://w") (str "m")
      (str "noext") [9] = .error (.filenameFailed .invalidExtension) := by
  constructor
  · exact ((c6_forwarder_spec (fun _ => .ok ([1, 2], 200)) (str "b") (str "http://w")
      (str "m") (str "a.mp3") [9]).1 (str "audio.mp3") rfl).1 [1, 2] 200 rfl
  · exact (c6_forwarder_spec (fun _ => .ok ([1, 2], 200)) (str "b") (str "http://w")
      (str "m") (str "noext") [9]).2 .invalidExtension rfl

/-- C7: for POST requests to the upload ingress a non-200 status arises
only as 400 for the failed capped multipart parse, 400 for the missing
file part, or 500 for the failed in-memory read; forwarder failures and
backend-body parse failures are rendered as status-200 HTML carrying
the error message. -/
theorem c7_upload_status (cfg : Config) (env : UploadEnv)
    (hm : env.method = str "POST") :
    ((uploadHandler cfg env).status ≠ 200 →
      uploadHandler cfg env = .httpError (str "File too large") 400 ∨
      uploadHandler cfg env = .httpError (str "Missing file") 400 ∨
      uploadHandler cfg env = .httpError (str "Failed to read file") 500) ∧
    (∀ filename data e, env.parseForm = .ok () → env.formFile = .ok filename →
      env.fileRead = .ok data →
      sendToTranscription env.transport env.boundary cfg.baseURL cfg.whisperModel
        filename data = .error e →
      uploadHandler cfg env = .errorHTML e.message ∧
        (uploadHandler cfg env).status = 200) ∧
    (∀ filename data respBody status cause, env.parseForm = .ok () →
      env.formFile = .ok filename → env.fileRead = .ok data →
      sendToTranscription env.transport env.boundary cfg.baseURL cfg.whisperModel
        filename data = .ok (respBody, status) →
      env.parseResult respBody = .error cause →
      uploadHandler cfg env = .parseFailHTML cause ∧
        (uploadHandler cfg env).status = 200) := by
  refine ⟨?_, ?_, ?_⟩
  · intro hne
    cases hpf : env.parseForm with
    | error u => left; simp [uploadHandler, hm, hpf]
    | ok u =>
      cases hff : env.formFile with
      | error u2 => right; left; simp [uploadHandler, hm, hpf, hff]
      | ok filename =>
        cases hfr : env.fileRead with
        | error u3 => right; right; simp [uploadHandler, hm, hpf, hff, hfr]
        | ok data =>
          exfalso
          apply hne
          cases hs : sendToTranscription env.transport env.boundary cfg.baseURL
              cfg.whisperModel filename data with
          | error e =>
            simp [uploadHandler, hm, hpf, hff, hfr, hs, UploadOutput.status]
          | ok pr =>
            obtain ⟨respBody, st⟩ := pr
            cases hp : env.parseResult respBody with
            | error c =>
              simp [uploadHandler, hm, hpf, hff, hfr, hs, hp, UploadOutput.status]
            | ok t =>
              simp [uploadHandler, hm, hpf, hff, hfr, hs, hp, UploadOutput.status]
  · intro filename data e hpf hff hfr hs
    constructor
    · simp [uploadHandler, hm, hpf, hff, hfr, hs]
    · simp [uploadHandler, hm, hpf, hff, hfr, hs, UploadOutput.status]
  · intro filename data respBody status cause hpf hff hfr hs hp
    constructor
    · simp [uploadHandler, hm, hpf, hff, hfr, hs, hp]
    · simp [uploadHandler, hm, hpf, hff, hfr, hs, hp, UploadOutput.status]

/-- Witness for C7: an upload of a file named without an extension makes
the forwarder fail, and the page comes back as status-200 error HTML. -/
theorem c7_upload_status_w :
    uploadHandler cfgEx
      ⟨str "POST", .ok (), .ok (str "noext"), .ok [1], str "b",
       fun _ => .ok ([2], 200), fun _ => .ok (str "t")⟩ =
      .errorHTML (SendError.filenameFailed .invalidExtension).message ∧
    (uploadHandler cfgEx
      ⟨str "POST", .ok (), .ok (str "noext"), .ok [1], str "b",
       fun _ => .ok ([2], 200), fun _ => .ok (str "t")⟩).status = 200 :=
  (c7_upload_status cfgEx
    ⟨str "POST", .ok (), .ok (str "noext"), .ok [1], str "b",
     fun _ => .ok ([2], 200), fun _ => .ok (str "t")⟩ rfl).2.1
    (str "noext") [1] (.filenameFailed .invalidExtension) rfl rfl rfl rfl

/-- C1: every chat-completions request, whatever its outcome, is
answered with status 200, content type application/json and the fixed
envelope: mock id, chat.completion tag, the configured model, the
current timestamp, exactly one choice with index 0, assistant role and
finish reason stop; the content is the branch's text, and on success it
is exactly the parsed transcript. -/
theorem c1_uniform_envelope (cfg : Config) (env : ChatEnv) :
    (chatCompletionsHandler cfg env).status = 200 ∧
    (chatCompletionsHandler cfg env).contentType = str "application/json" ∧
    (chatCompletionsHandler cfg env).body.id = str "chatcmpl-mockid" ∧
    (chatCompletionsHandler cfg env).body.object = str "chat.completion" ∧
    (chatCompletionsHandler cfg env).body.model = cfg.whisperModel ∧
    (chatCompletionsHandler cfg env).body.created = env.now ∧
    (chatCompletionsHandler cfg env).body.choices =
      [⟨0, ⟨str "assistant", outcomeText (chatOutcome cfg env)⟩, str "stop"⟩] ∧
    (∀ t, chatOutcome cfg env = .success t →
      (chatCompletionsHandler cfg env).body.choices =
        [⟨0, ⟨str "assistant", t⟩, str "stop"⟩]) := by
  refine ⟨rfl, rfl, rfl, rfl, rfl, rfl, rfl, ?_⟩
  intro t ht
  simp [chatCompletionsHandler, respondModel, ht, outcomeText]

/-- Witness for C1: the success clause on a fully successful concrete
pipeline. -/
theorem c1_uniform_envelope_w :
    chatOutcome cfgEx envEx = .success (str "hello world") ∧
    (chatCompletionsHandler cfgEx envEx).body.choices =
      [⟨0, ⟨str "assistant", str "hello world"⟩, str "stop"⟩] :=
  ⟨rfl, (c1_uniform_envelope cfgEx envEx).2.2.2.2.2.2.2 (str "hello world") rfl⟩

/-- C9: with the method, body, network, boundary, transport and
backend-parse oracles all fixed, two runs differing only in the wall
clock agree on everything but the created field, in particular on the
choices and their message content. -/
theorem c9_idempotent (cfg : Config) (method : Str)
    (parseBody : Except Str ChatCompletionRequest)
    (net : Str → Except Str HTTPResponse) (boundary : Str)
    (transport : ForwardRequest → Except Str (List Nat × Nat))
    (parseTrans : List Nat → Except Str Str) (n1 n2 : Int) :
    (chatCompletionsHandler cfg ⟨method, parseBody, net, boundary, transport, parseTrans, n1⟩).body.choices =
      (chatCompletionsHandler cfg ⟨method, parseBody, net, boundary, transport, parseTrans, n2⟩).body.choices ∧
    (chatCompletionsHandler cfg ⟨method, parseBody, net, boundary, transport, parseTrans, n1⟩).status =
      (chatCompletionsHandler cfg ⟨method, parseBody, net, boundary, transport, parseTrans, n2⟩).status ∧
    (chatCompletionsHandler cfg ⟨method, parseBody, net, boundary, transport, parseTrans, n1⟩).contentType =
      (chatCompletionsHandler cfg ⟨method, parseBody, net, boundary, transport, parseTrans, n2⟩).contentType ∧
    (chatCompletionsHandler cfg ⟨method, parseBody, net, boundary, transport, parseTrans, n1⟩).body.id =
      (chatCompletionsHandler cfg ⟨method, parseBody, net, boundary, transport, parseTrans, n2⟩).body.id ∧
    (chatCompletionsHandler cfg ⟨method, parseBody, net, boundary, transport, parseTrans, n1⟩).body.object =
      (chatCompletionsHandler cfg ⟨method, parseBody, net, boundary, transport, parseTrans, n2⟩).body.object ∧
    (chatCompletionsHandler cfg ⟨method, parseBody, net, boundary, transport, parseTrans, n1⟩).body.model =
      (chatCompletionsHandler cfg ⟨method, parseBody, net, boundary, transport, parseTrans, n2⟩).body.model :=
  ⟨rfl, rfl, rfl, rfl, rfl, rfl⟩

theorem getLast?_none_imp {α : Type} (l : List α) (h : l.getLast? = none) : l = [] := by
  cases l with
  | nil => rfl
  | cons x xs => simp at h

theorem closed_append_ne (s c t : Str) (a b : Char) (s2 t2 : Str)
    (hs : s = a :: s2) (ht : t = b :: t2) (hne : a ≠ b) : ¬ s ++ c = t := by
  intro h
  rw [hs, ht, List.cons_append] at h
  injection h with h1 _
  exact hne h1

theorem chatOutcome_post (cfg : Config) (env : ChatEnv)
    (req : ChatCompletionRequest) (m : ChatMessage)
    (hm : env.method = str "POST") (hp : env.parseBody = .ok req)
    (hL : req.messages.getLast? = some m) :
    chatOutcome cfg env =
      (if extractURLFromText m.content = [] then .noURL
       else
         match downloadFromNet env.net (extractURLFromText m.content) cfg.maxAudioSize with
         | .error e => .downloadFailed e
         | .ok audioData =>
           match sendToTranscription env.transport env.boundary cfg.baseURL
               cfg.whisperModel (extractURLFromText m.content) audioData with
           | .error e => .transcriptionError e
           | .ok (respBody, _) =>
             match env.parseTrans respBody with
             | .error cause => .invalidResponse cause
             | .ok text => .success text) := by
  simp [chatOutcome, hm, hp, hL]

theorem chatOutcome_noMessages_inv (cfg : Config) (env : ChatEnv)
    (req : ChatCompletionRequest) (m : ChatMessage)
    (hm : env.method = str "POST") (hp : env.parseBody = .ok req)
    (hL : req.messages.getLast? = some m) :
    chatOutcome cfg env ≠ .noMessages := by
  intro ho
  rw [chatOutcome_post cfg env req m hm hp hL] at ho
  split at ho
  · exact ChatOutcome.noConfusion ho
  · split at ho
    · exact ChatOutcome.noConfusion ho
    · split at ho
      · exact ChatOutcome.noConfusion ho
      · split at ho
        · exact ChatOutcome.noConfusion ho
        · exact ChatOutcome.noConfusion ho

/-- C8 counterexample: a POST whose body parses to a one-element (hence
non-empty) message list still answers with content exactly
"No messages provided", because the deterministic backend's transcript
is that very string; so a non-empty messages list can produce that
text. -/
theorem c8_counterexample :
    envC8.method = str "POST" ∧
    envC8.parseBody = .ok ⟨[⟨str "user", str "t https://h/a.mp3"⟩]⟩ ∧
    ([⟨str "user", str "t https://h/a.mp3"⟩] : List ChatMessage) ≠ [] ∧
    (chatCompletionsHandler cfgEx envC8).body.choices =
      [⟨0, ⟨str "assistant", str "No messages provided"⟩, str "stop"⟩] ∧
    (chatCompletionsHandler cfgEx envC8).status = 200 := by
  refine ⟨rfl, rfl, by decide, rfl, rfl⟩

/-- C8 amended: for POST requests whose body parses, empty messages
answer exactly "No messages provided" with status 200; with non-empty
messages that content occurs only when the pipeline succeeded with a
backend transcript equal to it (no validation or error branch produces
it); and only the last message is inspected, earlier ones never change
the response. -/
theorem c8_amended (cfg : Config) (env : ChatEnv) (req : ChatCompletionRequest)
    (hm : env.method = str "POST") (hp : env.parseBody = .ok req) :
    (req.messages = [] →
      (chatCompletionsHandler cfg env).body.choices =
        [⟨0, ⟨str "assistant", str "No messages provided"⟩, str "stop"⟩] ∧
      (chatCompletionsHandler cfg env).status = 200) ∧
    (req.messages ≠ [] →
      (chatCompletionsHandler cfg env).body.choices =
        [⟨0, ⟨str "assistant", str "No messages provided"⟩, str "stop"⟩] →
      chatOutcome cfg env = .success (str "No messages provided")) ∧
    (∀ (net : Str → Except Str HTTPResponse) (boundary : Str)
       (transport : ForwardRequest → Except Str (List Nat × Nat))
       (parseTrans : List Nat → Except Str Str) (now : Int)
       (ms1 ms2 : List ChatMessage) (m : ChatMessage),
      ms1.getLast? = some m → ms2.getLast? = some m →
      chatCompletionsHandler cfg ⟨str "POST", .ok ⟨ms1⟩, net, boundary, transport, parseTrans, now⟩ =
        chatCompletionsHandler cfg ⟨str "POST", .ok ⟨ms2⟩, net, boundary, transport, parseTrans, now⟩) := by
  refine ⟨?_, ?_, ?_⟩
  · intro hmty
    have ho : chatOutcome cfg env = .noMessages := by
      simp [chatOutcome, hm, hp, hmty]
    exact ⟨by simp [chatCompletionsHandler, ho, outcomeText, respondModel], rfl⟩
  · intro hne hchoices
    have h0 : (chatCompletionsHandler cfg env).body.choices =
        [⟨0, ⟨str "assistant", outcomeText (chatOutcome cfg env)⟩, str "stop"⟩] := rfl
    rw [h0] at hchoices
    simp only [List.cons.injEq, EnvChoice.mk.injEq, EnvMessage.mk.injEq, and_true,
      true_and] at hchoices
    obtain ⟨m, hL⟩ : ∃ m, req.messages.getLast? = some m := by
      cases hq : req.messages.getLast? with
      | none => exact absurd (getLast?_none_imp req.messages hq) hne
      | some m => exact ⟨m, rfl⟩
    cases ho : chatOutcome cfg env with
    | methodNotAllowed =>
      rw [ho] at hchoices
      simp only [outcomeText] at hchoices
      exact absurd hchoices (by decide)
    | invalidJSON cause =>
      rw [ho] at hchoices
      simp only [outcomeText] at hchoices
      exact absurd hchoices (closed_append_ne (str "Invalid JSON" ++ str ": ") cause
        (str "No messages provided") 'I' 'N' (str "nvalid JSON: ")
        (str "o messages provided") rfl rfl (by decide))
    | noMessages =>
      exact absurd ho (chatOutcome_noMessages_inv cfg env req m hm hp hL)
    | noURL =>
      rw [ho] at hchoices
      simp only [outcomeText] at hchoices
      exact absurd hchoices (by decide)
    | downloadFailed e =>
      rw [ho] at hchoices
      simp only [outcomeText] at hchoices
      exact absurd hchoices (closed_append_ne (str "Failed to download audio" ++ str ": ")
        e.message (str "No messages provided") 'F' 'N' (str "ailed to download audio: ")
        (str "o messages provided") rfl rfl (by decide))
    | transcriptionError e =>
      rw [ho] at hchoices
      simp only [outcomeText] at hchoices
      exact absurd hchoices (closed_append_ne (str "Transcription error" ++ str ": ")
        e.message (str "No messages provided") 'T' 'N' (str "ranscription error: ")
        (str "o messages provided") rfl rfl (by decide))
    | invalidResponse cause =>
      rw [ho] at hchoices
      simp only [outcomeText] at hchoices
      exact absurd hchoices (closed_append_ne (str "Invalid transcription response" ++ str ": ")
        cause (str "No messages provided") 'I' 'N' (str "nvalid transcription response: ")
        (str "o messages provided") rfl rfl (by decide))
    | success text =>
      rw [ho] at hchoices
      simp only [outcomeText] at hchoices
      rw [hchoices]
  · intro net boundary transport parseTrans now ms1 ms2 m h1 h2
    have o1 := chatOutcome_post cfg
      ⟨str "POST", .ok ⟨ms1⟩, net, boundary, transport, parseTrans, now⟩ ⟨ms1⟩ m rfl rfl h1
    have o2 := chatOutcome_post cfg
      ⟨str "POST", .ok ⟨ms2⟩, net, boundary, transport, parseTrans, now⟩ ⟨ms2⟩ m rfl rfl h2
    simp only [chatCompletionsHandler, o1, o2]

/-- Witness for C8: the amended empty-messages clause at a concrete
environment. -/
theorem c8_amended_w :
    (chatCompletionsHandler cfgEx envEmpty).body.choices =
      [⟨0, ⟨str "assistant", str "No messages provided"⟩, str "stop"⟩] ∧
    (chatCompletionsHandler cfgEx envEmpty).status = 200 :=
  (c8_amended cfgEx envEmpty ⟨[]⟩ rfl rfl).1 rfl
